import Mathlib

/-!
Verification development for the ezmqp library core (a RabbitMQ client
wrapper).  The TypeScript sources are shallowly embedded: pure functions
become Lean functions, the effects of the delivery pipeline (handler
invocations, terminal ack/nack signals) are modelled as explicit event
traces, and channel lifecycle becomes a step function on an explicit
state type.  JavaScript `undefined`/missing values are modelled with
`Option`, JS exceptions with `Except String`.
-/

namespace Ezmqp

/-! ## Handler chain engine (src/queue.ts, `makeChain`)

A chain handler receives a message and a `next` callback; `next` takes an
optional `boolean | Error` argument.  We model the possible arguments with
`Sig` (`none` is a call with no argument, i.e. JS `undefined`).  Handler
execution is modelled by the trace of observable events it produces:
`invoke i` when handler `i` starts running, `terminal s` when the
outermost `next` (the ack closure installed by `Queue.sub`) is called
with signal `s`.  A handler is any function from the message and a
`next` continuation (returning its trace) to the handler's own trace. -/

/-- Argument passed to a chain `next` callback: no argument (`undefined`),
`true`, `false`, or an `Error` value. -/
inductive Sig where
  | none
  | tt
  | ff
  | err
deriving DecidableEq, Repr

/-- Observable events of one delivery's handler-chain execution. -/
inductive Event where
  /-- Handler number `i` (0-based) is invoked. -/
  | invoke (i : Nat)
  /-- The outermost `next` (the ack closure in `Queue.sub`) is called with `s`. -/
  | terminal (s : Sig)
deriving DecidableEq, Repr

/-- A handler, trace-semantically: given the message and the `next`
continuation (itself returning the trace of what the rest of the chain
does with a signal), produce the trace of this handler's execution. -/
def ChainHandler (M : Type) : Type := M → (Sig → List Event) → List Event

/-- The callback `makeChain`'s reducer wraps around `next` before handing
it to the enclosing chain (src/queue.ts lines 13-18):
`success === false` and `success instanceof Error` forward to `next` and
return; `success === true` calls `next(true)` *and falls through* to the
handler (there is no `return` on that line); no argument runs the handler. -/
def dispatchStep {M : Type} (hdl : ChainHandler M) (msg : M)
    (next : Sig → List Event) : Sig → List Event
  | .ff => next .ff
  | .err => next .err
  | .tt => next .tt ++ hdl msg next
  | .none => hdl msg next

/-- The reducer passed to `handlers.reduce` in `makeChain`. -/
def chainFold {M : Type} (chain hdl : ChainHandler M) : ChainHandler M :=
  fun msg next => chain msg (dispatchStep hdl msg next)

/-- src/queue.ts `makeChain`: left fold of `chainFold` over the handler
list, seeded with `(msg, next) => next()`. -/
def makeChain {M : Type} (handlers : List (ChainHandler M)) : ChainHandler M :=
  handlers.foldl chainFold (fun _ next => next .none)

/-- The continuation stack `makeChain` builds: handler `i`'s `next` is the
dispatcher for handler `i+1`, whose own `next` is the dispatcher for
handler `i+2`, and so on down to the outermost `next` `N`. -/
def wrapNext {M : Type} (hs : List (ChainHandler M)) (msg : M)
    (N : Sig → List Event) : Sig → List Event :=
  match hs with
  | [] => N
  | h :: t => dispatchStep h msg (wrapNext t msg N)

theorem foldl_chainFold_eq {M : Type} (hs : List (ChainHandler M)) :
    ∀ (c : ChainHandler M) (msg : M) (N : Sig → List Event),
      hs.foldl chainFold c msg N = c msg (wrapNext hs msg N) := by
  induction hs with
  | nil => intro c msg N; rfl
  | cons h t ih =>
      intro c msg N
      rw [List.foldl_cons, ih]
      rfl

theorem makeChain_eq_wrapNext {M : Type} (hs : List (ChainHandler M))
    (msg : M) (N : Sig → List Event) :
    makeChain hs msg N = wrapNext hs msg N .none := by
  rw [makeChain, foldl_chainFold_eq]

/-! ### Scripted handler behaviours

To state properties about "a handler that calls `next(x)`" or "a handler
that returns without calling `next`", we script handlers with `HB`. -/

/-- A scripted handler behaviour: either return without calling `next`,
or call `next` once with signal `s` and then return. -/
inductive HB where
  | done
  | call (s : Sig)
deriving DecidableEq, Repr

/-- The handler realizing behaviour `b`, reporting itself as handler `i`. -/
def hb {M : Type} (i : Nat) (b : HB) : ChainHandler M :=
  fun _ next => .invoke i :: (match b with | .done => [] | .call s => next s)

/-- The continuation stack for the scripted handlers `bs`, numbered from `k`. -/
def Wn (k : Nat) (bs : List HB) (N : Sig → List Event) : Sig → List Event :=
  wrapNext ((List.enumFrom k bs).map fun p => hb p.1 p.2) () N

/-- The terminal continuation: record that the outermost `next` was called. -/
def termN : Sig → List Event := fun s => [.terminal s]

/-- Trace of running the chain composed (by `makeChain`) of the scripted
handlers `bs` with the outermost `next` being the subscriber's ack. -/
def chainTrace (bs : List HB) : List Event :=
  makeChain ((bs.enum).map fun p => hb p.1 p.2) () termN

theorem chainTrace_eq_Wn (bs : List HB) :
    chainTrace bs = Wn 0 bs termN .none := by
  rw [chainTrace, makeChain_eq_wrapNext]
  rfl

theorem Wn_nil (k : Nat) (N : Sig → List Event) : Wn k [] N = N := rfl

theorem Wn_cons (k : Nat) (b : HB) (t : List HB) (N : Sig → List Event) :
    Wn k (b :: t) N = dispatchStep (hb k b) () (Wn (k + 1) t N) := rfl

theorem Wn_cons_none (k : Nat) (b : HB) (t : List HB) (N : Sig → List Event) :
    Wn k (b :: t) N .none
      = .invoke k :: (match b with | .done => [] | .call s => Wn (k + 1) t N s) := rfl

theorem Wn_cons_tt (k : Nat) (b : HB) (t : List HB) (N : Sig → List Event) :
    Wn k (b :: t) N .tt
      = Wn (k + 1) t N .tt
        ++ .invoke k :: (match b with | .done => [] | .call s => Wn (k + 1) t N s) := rfl

theorem Wn_ff (bs : List HB) : ∀ (k : Nat) (N : Sig → List Event),
    Wn k bs N .ff = N .ff := by
  induction bs with
  | nil => intro k N; rfl
  | cons b t ih => intro k N; rw [Wn_cons]; exact ih (k + 1) N

theorem Wn_err (bs : List HB) : ∀ (k : Nat) (N : Sig → List Event),
    Wn k bs N .err = N .err := by
  induction bs with
  | nil => intro k N; rfl
  | cons b t ih => intro k N; rw [Wn_cons]; exact ih (k + 1) N

/-- `[.invoke k, .invoke (k+1), …]` of length `n`: handlers `k … k+n-1`
invoked in ascending order. -/
def invokesFrom (k : Nat) : Nat → List Event
  | 0 => []
  | n + 1 => .invoke k :: invokesFrom (k + 1) n

/-- `[.invoke (k+n-1), …, .invoke k]`: handlers `k … k+n-1` invoked in
descending order. -/
def invokesRev (k : Nat) : Nat → List Event
  | 0 => []
  | n + 1 => invokesRev (k + 1) n ++ [.invoke k]

/-- A proceed-with-no-argument signal delivered to the stack for
`replicate i (call none) ++ done :: rest` invokes handlers `k … k+i` in
order and nothing else: the first `done` handler ends the chain, no
handler of `rest` runs and the outermost `next` is never called. -/
theorem Wn_linear (i : Nat) : ∀ (k : Nat) (rest : List HB) (N : Sig → List Event),
    Wn k (List.replicate i (.call .none) ++ .done :: rest) N .none
      = invokesFrom k (i + 1) := by
  induction i with
  | zero =>
      intro k rest N
      rw [List.replicate_zero, List.nil_append, Wn_cons_none]
      rfl
  | succ i ih =>
      intro k rest N
      rw [List.replicate_succ, List.cons_append, Wn_cons_none]
      show _ :: Wn (k + 1) _ N .none = _
      rw [ih (k + 1) rest N]
      rfl

/-- A `true` signal delivered to a stack of `n` handlers that all return
without calling `next` first reaches the outermost `next` and only then
invokes those handlers, in reverse order. -/
theorem Wn_done_tt (n : Nat) : ∀ (k : Nat),
    Wn k (List.replicate n .done) termN .tt
      = .terminal .tt :: invokesRev k n := by
  induction n with
  | zero => intro k; rfl
  | succ n ih =>
      intro k
      rw [List.replicate_succ, Wn_cons_tt, ih (k + 1)]
      rfl

/-! ## Acknowledgement (src/queue.ts, `Queue.makeAck` and `Queue.sub`)

`makeAck` builds a one-shot closure over a `called` flag; calling it with
no argument defaults to `true`.  `success === true` acks the delivery on
the `__read__` channel; anything else nacks with
`requeue = !this.config.deadLetterExchange` (JS truthiness: a present,
non-empty string is truthy).  `Queue.sub`'s consume callback runs
`await chain(message, ack); ack()` and on a thrown/rejected chain runs
`ack(false)`.  We model a delivery by the list of signals the ack closure
receives, in order, and compute the list of channel operations issued. -/

/-- Argument passed to the ack closure: JS `undefined` (no argument),
`true`, `false`, or an `Error` value. -/
inductive JsSig where
  | undef
  | tt
  | ff
  | err
deriving DecidableEq, Repr

/-- A channel operation issued by the ack closure: `ack(msg)` or
`nack(msg, false, requeue)` on the `__read__` channel. -/
inductive AckEffect where
  | ackE
  | nackE (requeue : Bool)
deriving DecidableEq, Repr

/-- JS truthiness of the optional `deadLetterExchange` string field:
`undefined` and the empty string are falsy. -/
def jsTruthyStr (o : Option String) : Bool :=
  match o with
  | Option.none => false
  | some s => decide (s ≠ "")

/-- The body of the closure returned by `Queue.makeAck`, ignoring the
`called` flag (src/queue.ts lines 52-57): the default parameter turns a
call without argument into `success = true`; `success === true` acks,
anything else nacks with `requeue = !this.config.deadLetterExchange`. -/
def ackEffect (dlx : Option String) (s : JsSig) : AckEffect :=
  let success : JsSig := match s with | .undef => .tt | x => x
  if success = .tt then .ackE else .nackE (!jsTruthyStr dlx)

/-- The one-shot closure of `Queue.makeAck` run over a list of calls:
`called` starts false, the first call flips it and issues its effect,
every later call returns immediately. -/
def makeAckRun (dlx : Option String) (called : Bool) : List JsSig → List AckEffect
  | [] => []
  | s :: rest =>
      if called then makeAckRun dlx true rest
      else ackEffect dlx s :: makeAckRun dlx true rest

theorem makeAckRun_called (dlx : Option String) (l : List JsSig) :
    makeAckRun dlx true l = [] := by
  induction l with
  | nil => rfl
  | cons s rest ih => rw [makeAckRun, if_pos rfl, ih]

/-- The ack calls issued while processing one delivery in `Queue.sub`'s
consume callback *from the ack closure on* (the decode step that precedes
`makeAck` is modelled by `subDeliver` below): the chain calls the closure
with `chainCalls` (possibly none), then the wrapper calls `ack()` after a
normal completion or `ack(false)` after a throw/rejection. -/
def subAckEffects (dlx : Option String) (chainCalls : List JsSig)
    (threw : Bool) : List AckEffect :=
  makeAckRun dlx false (chainCalls ++ [if threw then JsSig.ff else JsSig.undef])

/-- Map a chain-terminal signal to the argument the ack closure receives. -/
def sigToJs : Sig → JsSig
  | .none => .undef
  | .tt => .tt
  | .ff => .ff
  | .err => .err

/-- The calls the outermost `next` (the ack closure) receives during a
chain run, read off the chain's event trace. -/
def terminalCalls : List Event → List JsSig
  | [] => []
  | .terminal s :: rest => sigToJs s :: terminalCalls rest
  | .invoke _ :: rest => terminalCalls rest

/-- One full delivery through `Queue.sub` with scripted handlers `bs`
(no handler throws): run the chain with the ack closure as outermost
`next`, then the wrapper's trailing `ack()`. -/
def subRun (dlx : Option String) (bs : List HB) : List AckEffect :=
  subAckEffects dlx (terminalCalls (chainTrace bs)) false

theorem terminalCalls_invokesFrom (n : Nat) : ∀ (k : Nat),
    terminalCalls (invokesFrom k n) = [] := by
  induction n with
  | zero => intro k; rfl
  | succ n ih => intro k; rw [invokesFrom, terminalCalls, ih]

/-- Delivering a proceed signal into the stack for
`replicate i (call none) ++ call tt :: rest` invokes handlers `k … k+i-1`
and then `k+i`, whose `next(true)` hands the `tt` signal to the rest of
the stack. -/
theorem Wn_prefix_tt (i : Nat) : ∀ (k : Nat) (rest : List HB) (N : Sig → List Event),
    Wn k (List.replicate i (.call .none) ++ .call .tt :: rest) N .none
      = invokesFrom k i ++ .invoke (k + i) :: Wn (k + i + 1) rest N .tt := by
  induction i with
  | zero =>
      intro k rest N
      rw [List.replicate_zero, List.nil_append, Wn_cons_none]
      simp only [invokesFrom, List.nil_append, Nat.add_zero]
  | succ i ih =>
      intro k rest N
      rw [List.replicate_succ, List.cons_append, Wn_cons_none]
      show _ :: Wn (k + 1) _ N .none = _
      rw [ih (k + 1) rest N, invokesFrom]
      simp only [List.cons_append, Nat.add_succ, Nat.succ_add]

/-- The delivery's ack calls collapse to the single effect of the first
call: the one-shot closure drops every later call, and the subscriber
wrapper guarantees there is at least one call. -/
theorem subAckEffects_eq (dlx : Option String) (calls : List JsSig) (threw : Bool) :
    subAckEffects dlx calls threw
      = [ackEffect dlx (calls.headD (if threw then JsSig.ff else JsSig.undef))] := by
  cases calls with
  | nil =>
      rw [subAckEffects, List.nil_append, makeAckRun, if_neg (by simp), makeAckRun_called]
      rfl
  | cons c cs =>
      rw [subAckEffects, List.cons_append, makeAckRun, if_neg (by simp), makeAckRun_called]
      rfl

/-- src/queue.ts `Queue.sub`'s consume callback for one whole delivery,
in the callback's order: the decode step first — when
`message.contentType === "application/json"`, run
`JSON.parse(message.content.toString())` (line 95), *before* `makeAck`
and *outside* the try/catch, so a parse failure rejects the callback
with no ack closure ever created — then the ack closure and the
chain/try/catch processing of `subAckEffects`.  `jsonParse` abstracts
the host's `JSON.parse` on the decoded body (`none` = throw). -/
def subDeliver {J : Type} (jsonParse : String → Option J) (dlx : Option String)
    (contentType : Option String) (body : String)
    (chainCalls : List JsSig) (threw : Bool) : List AckEffect :=
  if contentType = some "application/json" then
    match jsonParse body with
    | Option.none => []
    | some _ => subAckEffects dlx chainCalls threw
  else subAckEffects dlx chainCalls threw

/-- C2 counterexample: a delivery with `contentType = "application/json"`
whose body `JSON.parse` rejects — reachable via
`queue.send(Buffer.from("oops"), { contentType: "application/json" })`,
since `prepareMessage` returns a Buffer unchanged with the caller's
contentType — throws at src/queue.ts line 95, before `makeAck` and
outside the try/catch: the callback rejects and *neither* ack nor nack
is issued, so "exactly one of ack or nack for every delivered message"
fails at this input.  (`jsonParse` is instantiated at a parser accepting
exactly the body `"null"`, which rejects `"oops"` as `JSON.parse` does.) -/
theorem sub_decode_counterexample :
    subDeliver (fun s : String => if s = "null" then some (() : Unit) else Option.none)
        (some "x") (some "application/json") "oops" [] false = []
      ∧ (subDeliver (fun s : String => if s = "null" then some (() : Unit) else Option.none)
          (some "x") (some "application/json") "oops" [] false).length ≠ 1 := by
  exact ⟨rfl, by decide⟩

/-- C2 (amended): for every message delivered to a subscriber created by
`Queue.sub` that survives the decode step — its contentType is not
`application/json`, or its body parses — exactly one of ack or nack is
issued on the `__read__` channel, whatever sequence of calls the chain
makes on the one-shot ack closure (including none) and whether the chain
completed normally or threw, the first call winning (the wrapper's
trailing `ack()` / `ack(false)` acting as the last-resort call); but a
delivery whose JSON decode throws issues neither ack nor nack, because
`JSON.parse` runs before `makeAck` and outside the try/catch. -/
theorem sub_exactly_one_ack {J : Type} (jsonParse : String → Option J)
    (dlx : Option String) (ct : Option String) (body : String)
    (calls : List JsSig) (threw : Bool) :
    ((ct = some "application/json" → jsonParse body ≠ Option.none) →
        (subDeliver jsonParse dlx ct body calls threw).length = 1
          ∧ subDeliver jsonParse dlx ct body calls threw
              = [ackEffect dlx (calls.headD (if threw then JsSig.ff else JsSig.undef))])
      ∧ (ct = some "application/json" → jsonParse body = Option.none →
          subDeliver jsonParse dlx ct body calls threw = []) := by
  constructor
  · intro hok
    unfold subDeliver
    by_cases hct : ct = some "application/json"
    · rw [if_pos hct]
      cases hp : jsonParse body with
      | none => exact absurd hp (hok hct)
      | some j =>
          refine ⟨?_, subAckEffects_eq dlx calls threw⟩
          rw [subAckEffects_eq dlx calls threw]
          rfl
    · rw [if_neg hct]
      refine ⟨?_, subAckEffects_eq dlx calls threw⟩
      rw [subAckEffects_eq dlx calls threw]
      rfl
  · intro hct hp
    unfold subDeliver
    rw [if_pos hct, hp]

/-- C2 witness: a delivery whose body `"null"` parses, on a queue with a
dead-letter exchange, issues exactly one channel operation. -/
theorem sub_exactly_one_ack_witness :
    (subDeliver (fun s : String => if s = "null" then some (() : Unit) else Option.none)
        (some "x") (some "application/json") "null" [] false).length = 1 := by
  have h := (sub_exactly_one_ack
      (fun s : String => if s = "null" then some (() : Unit) else Option.none)
      (some "x") (some "application/json") "null" [] false).1 (fun _ => by decide)
  exact h.1

/-- C3 counterexample: a queue whose spec sets `deadLetterExchange` to the
empty string *has the field set*, yet a failed delivery is nacked with
`requeue = true` (the code tests JS truthiness, `!this.config.deadLetterExchange`,
and the empty string is falsy), contradicting the claim that a set
`deadLetterExchange` forces `requeue = false`. -/
theorem sub_requeue_counterexample :
    subAckEffects (some "") [JsSig.ff] false = [AckEffect.nackE true]
      ∧ (some "" : Option String) ≠ Option.none := by
  exact ⟨rfl, by decide⟩

/-- Any nack the ack closure issues carries `requeue = !truthy(deadLetterExchange)`. -/
theorem ackEffect_nack (dlx : Option String) (s : JsSig) (r : Bool)
    (h : ackEffect dlx s = .nackE r) : r = !jsTruthyStr dlx := by
  cases s
  case undef => simp [ackEffect] at h
  case tt => simp [ackEffect] at h
  case ff =>
      have h2 : AckEffect.nackE (!jsTruthyStr dlx) = AckEffect.nackE r := h
      injection h2 with h3
      exact h3.symm
  case err =>
      have h2 : AckEffect.nackE (!jsTruthyStr dlx) = AckEffect.nackE r := h
      injection h2 with h3
      exact h3.symm

/-- C3 (amended): for every delivered message whose outcome is a failure,
the resulting nack uses `requeue = false` exactly when the queue's spec
has `deadLetterExchange` set to a non-empty string (JS truthiness), and
`requeue = true` otherwise (unset or empty string). -/
theorem sub_requeue_policy (dlx : Option String) (calls : List JsSig)
    (threw : Bool) (r : Bool)
    (h : AckEffect.nackE r ∈ subAckEffects dlx calls threw) :
    r = false ↔ ∃ s, dlx = some s ∧ s ≠ "" := by
  rw [subAckEffects_eq dlx calls threw, List.mem_singleton] at h
  have hr := ackEffect_nack dlx _ r h.symm
  subst hr
  cases dlx with
  | none => simp [jsTruthyStr]
  | some s => by_cases hs : s = "" <;> simp [jsTruthyStr, hs]

/-- C3 witness: a failed delivery (`next(false)`) from a queue whose
`deadLetterExchange` is the non-empty string `"x"` is nacked with
`requeue = false`. -/
theorem sub_requeue_policy_witness :
    (AckEffect.nackE false ∈ subAckEffects (some "x") [JsSig.ff] false)
      ∧ (false = false ↔ ∃ s, (some "x" : Option String) = some s ∧ s ≠ "") := by
  refine ⟨by decide, sub_requeue_policy (some "x") [JsSig.ff] false false (by decide)⟩

/-- C4 counterexample: in the chain `[H0, H1]` where `H0` calls
`next(true)` and `H1` returns, the terminal completion signal (the ack
closure) fires *before* `H1` is invoked, and the trace differs from the
one produced by a plain `next()` — so `next()` and `next(true)` do not
have the same proceed semantics and the terminal signal is delivered
before the downstream handler runs, contradicting the claim. -/
theorem chain_proceed_counterexample :
    chainTrace [.call .tt, .done] = [.invoke 0, .terminal .tt, .invoke 1]
      ∧ chainTrace [.call .none, .done] = [.invoke 0, .invoke 1]
      ∧ chainTrace [.call .tt, .done] ≠ chainTrace [.call .none, .done] := by
  exact ⟨rfl, rfl, by decide⟩

/-- C4 (amended): in a composed chain, a handler's plain `next()` invokes
exactly the following handler, and handlers that keep calling `next()`
run in declaration order with nothing else interleaved; but `next(true)`
first propagates the `true` signal through every remaining dispatcher to
the terminal `next` — the completion signal fires before any downstream
handler runs — and then invokes the remaining handlers in *reverse*
order.  Stated for chains of `i+1` (resp. `i`) proceeding handlers
followed by `m+1` handlers that return without calling `next`. -/
theorem chain_proceed_semantics (i m : Nat) :
    chainTrace (List.replicate (i + 1) (.call .none) ++ List.replicate (m + 1) .done)
        = invokesFrom 0 (i + 2)
      ∧ chainTrace (List.replicate i (.call .none) ++ .call .tt :: List.replicate (m + 1) .done)
        = invokesFrom 0 i ++ .invoke i :: .terminal .tt :: invokesRev (i + 1) (m + 1) := by
  constructor
  · rw [chainTrace_eq_Wn, List.replicate_succ (n := m), Wn_linear (i + 1)]
  · rw [chainTrace_eq_Wn, Wn_prefix_tt, Wn_done_tt]
    simp

/-- C5 counterexample: in the chain `[H0, H1, H2]` where `H0` calls
`next(true)`, `H1` returns without calling `next`, and `H2` calls
`next()`: `H1` is invoked (last), yet `H2` — a handler strictly after the
`next`-less `H1` — is invoked too, contradicting the claim that no
handler after one that returns without calling `next` is invoked. -/
theorem chain_implicit_end_counterexample :
    chainTrace [.call .tt, .done, .call .none]
        = [.invoke 0, .terminal .tt, .invoke 2, .terminal .none, .invoke 1]
      ∧ Event.invoke 1 ∈ chainTrace [.call .tt, .done, .call .none]
      ∧ Event.invoke 2 ∈ chainTrace [.call .tt, .done, .call .none] := by
  exact ⟨rfl, by decide, by decide⟩

/-- C5 (amended): if handler `Hi` returns without calling `next` and
every handler before it proceeded with a plain `next()`, then no handler
after `Hi` is invoked — whatever handlers follow — the terminal `next` is
never called by the chain, and the delivery is acked (the chain's outcome
is success): the subscriber wrapper's trailing `ack()` wins. -/
theorem chain_implicit_end (dlx : Option String) (i : Nat) (rest : List HB) :
    chainTrace (List.replicate i (.call .none) ++ .done :: rest) = invokesFrom 0 (i + 1)
      ∧ subRun dlx (List.replicate i (.call .none) ++ .done :: rest) = [AckEffect.ackE] := by
  have htr : chainTrace (List.replicate i (.call .none) ++ .done :: rest)
      = invokesFrom 0 (i + 1) := by
    rw [chainTrace_eq_Wn, Wn_linear]
  refine ⟨htr, ?_⟩
  rw [subRun, htr, terminalCalls_invokesFrom]
  rfl

/-! ## Channel lifecycle (src/channel.ts)

A `Channel` entity holds `_channel` (here: the boolean `chan`, whether an
underlying channel is open) and the `closing` flag.  Its owning broker's
connectivity (`client.connected`) is part of the state.  `connect()`
first connects the broker if needed and then opens a channel and clears
`closing`; `close()` sets `closing` and asks the underlying channel to
close; the `close` listener `onClose` nulls `_channel` and reopens on the
same (still live) connection unless `closing` is set or the broker is
disconnected. -/

/-- The channel entity's state together with its broker's connectivity. -/
structure ChanState where
  brokerConnected : Bool
  chan : Bool
  closing : Bool
deriving DecidableEq, Repr

/-- src/channel.ts `connect`: no-op when open; otherwise ensure the
broker is connected, create a channel on the current connection and clear
`closing`. -/
def chanConnect (s : ChanState) : ChanState :=
  if s.chan then s
  else { brokerConnected := true, chan := true, closing := false }

/-- src/channel.ts `close`: no-op when not open; otherwise set `closing`
(the underlying close is then reported through the close event). -/
def chanClose (s : ChanState) : ChanState :=
  if s.chan then { s with closing := true } else s

/-- src/channel.ts `onClose` (the installed close listener): null the
channel; stay closed when `closing` is set or the broker is not
connected; otherwise reconnect on the same connection. -/
def chanOnClose (s : ChanState) : ChanState :=
  let s2 : ChanState := { s with chan := false }
  if s2.closing || !s2.brokerConnected then s2
  else chanConnect s2

/-- The events that drive a channel entity: the two user operations, the
underlying channel's close event, and the broker's connection dropping. -/
inductive ChanEv where
  | connect
  | close
  | closeEvt
  | connDrop
deriving DecidableEq, Repr

def chanStep (s : ChanState) : ChanEv → ChanState
  | .connect => chanConnect s
  | .close => chanClose s
  | .closeEvt => chanOnClose s
  | .connDrop => { s with brokerConnected := false }

/-- States reachable from the fresh entity (no channel, not closing,
broker disconnected). -/
inductive ChanReachable : ChanState → Prop where
  | init : ChanReachable ⟨false, false, false⟩
  | step {s : ChanState} (e : ChanEv) :
      ChanReachable s → ChanReachable (chanStep s e)

/-- C6: when a channel's underlying close event fires in any reachable
state: if the channel's `closing` flag is set, or the owning broker is
not connected, the channel stays closed (and `closing` is left as it
was); otherwise — a spontaneous close while the connection lives — the
channel reopens on the same connection (broker connectivity untouched)
with `closing` cleared.  In particular a user-closed channel
(`closing = true`) never reopens itself. -/
theorem channel_onClose_policy (s : ChanState) (hs : ChanReachable s) :
    ((s.closing = true ∨ s.brokerConnected = false) →
        chanStep s .closeEvt
          = { brokerConnected := s.brokerConnected, chan := false, closing := s.closing })
      ∧ (s.closing = false → s.brokerConnected = true →
          chanStep s .closeEvt
            = { brokerConnected := true, chan := true, closing := false }) := by
  constructor
  · intro h
    rcases s with ⟨b, c, cl⟩
    rcases h with h | h <;> simp_all [chanStep, chanOnClose, chanConnect]
  · intro h1 h2
    rcases s with ⟨b, c, cl⟩
    simp_all [chanStep, chanOnClose, chanConnect]

/-- C6 witness: the state reached by `connect` then `close` (channel open,
`closing` set, broker connected) is reachable, and the close event then
leaves the channel closed. -/
theorem channel_onClose_policy_witness :
    (chanStep (chanStep (chanStep ⟨false, false, false⟩ .connect) .close) .closeEvt
        = ⟨true, false, true⟩)
      ∧ ((⟨true, true, true⟩ : ChanState).closing = true ∨
          (⟨true, true, true⟩ : ChanState).brokerConnected = false) := by
  have hr : ChanReachable ⟨true, true, true⟩ :=
    ChanReachable.step .close (ChanReachable.step .connect ChanReachable.init)
  have h := (channel_onClose_policy ⟨true, true, true⟩ hr).1 (Or.inl rfl)
  exact ⟨h, Or.inl rfl⟩

/-! ## Endpoint validation and configuration loading (src/configuration.ts)

JS optional/missing values are `Option`; a JS function that can throw
returns `Except String`.  The numeric fields accept `string | number`
(`NumV`); `jsNumber` models `Number(value)` on the integer-valued inputs
the library meets. -/

/-- A JS `string | number` value handed to `validateNumber`. -/
inductive NumV where
  | num (n : Int)
  | str (s : String)
deriving DecidableEq, Repr

/-- JS `Number(value)` restricted to integer-valued inputs: a number
coerces to itself; a string parses as an optionally signed decimal
integer literal, the empty string coercing to `0`; anything else is NaN
(`none`).  Fractional/exponent/hex forms are outside this model and no
theorem below depends on them. -/
def jsNumber : NumV → Option Int
  | .num n => some n
  | .str s =>
      if s = "" then some 0
      else
        match s.toNat? with
        | some n => some (n : Int)
        | Option.none =>
            if s.startsWith "-" then ((s.drop 1).toNat?).map (fun n => -(n : Int))
            else Option.none

/-- JS `value + ""`. -/
def renderNumV : NumV → String
  | .num n => toString n
  | .str s => s

/-- src/configuration.ts `validateNumber`: `undefined`, `null` and the
empty string give the fallback; a value that does not coerce to a number,
or coerces outside `[mn, mx]`, throws `err` with `%s` replaced by the
value. -/
def validateNumber (value : Option NumV) (fallback : Int := 0) (mn : Int := 0)
    (mx : Int := 9007199254740991)
    (err : String := "Invalid number '%s'.") : Except String Int :=
  match value with
  | Option.none => Except.ok fallback
  | some v =>
      if v = NumV.str "" then Except.ok fallback
      else
        match jsNumber v with
        | Option.none => Except.error (err.replace "%s" (renderNumV v))
        | some n =>
            if n < mn || mx < n then Except.error (err.replace "%s" (renderNumV v))
            else Except.ok n

/-- A partial connection struct (TS `Partial<Connection>`): every field
optional; `none` is a missing/undefined field. -/
structure ConnPartial where
  protocol : Option String := Option.none
  hostname : Option String := Option.none
  username : Option String := Option.none
  password : Option String := Option.none
  port : Option NumV := Option.none
  channelMax : Option NumV := Option.none
  frameMax : Option NumV := Option.none
  heartbeat : Option NumV := Option.none
  locale : Option String := Option.none
  vhost : Option String := Option.none
deriving DecidableEq, Repr

/-- The validated connection record.  The source's return type
(`Required<Connection>`) promises every field a plain value, but the
implementation can leave `password` undefined (see the C7 theorem), so
`password` is modelled as it behaves: `Option String`. -/
structure ConnFull where
  protocol : String
  hostname : String
  username : String
  password : Option String
  port : Int
  channelMax : Int
  frameMax : Int
  heartbeat : Int
  locale : String
  vhost : String
deriving DecidableEq, Repr

/-- src/configuration.ts `validateConnection`, field for field and in the
source's evaluation order.  Note line 58's condition: the *password*
default is keyed on the *username*'s truthiness. -/
def validateConnection (c : ConnPartial) : Except String ConnFull := do
  let protocol ←
    match c.protocol with
    | Option.none => Except.ok "amqp"
    | some p =>
        if p = "" then Except.ok "amqp"
        else if p = "amqps" then Except.ok "amqps"
        else if p = "amqp" then Except.ok "amqp"
        else Except.error ("Invalid protocol '" ++ p ++ "'")
  let hostname := c.hostname.getD "localhost"
  let username := if jsTruthyStr c.username then c.username.getD "guest" else "guest"
  let password := if jsTruthyStr c.username then c.password else some "guest"
  let port ← validateNumber c.port 5672 0 65535 "Invalid port '%s'"
  let channelMax ← validateNumber c.channelMax 0 0 65535
    "Invalid channelMax '%s'. Expected range between 0 and 2^16-1"
  let frameMax ← validateNumber c.frameMax 0 0 4294967295
    "Invalid frameMax '%s'. Expected range between 0 and 2^32-1"
  let heartbeat ← validateNumber c.heartbeat 0 0 4294967295
    "Invalid heartbeat '%s'. Expected range between 0 and 2^32-1"
  let locale := c.locale.getD "en_US"
  let vhost :=
    match c.vhost with
    | some v => if v = "" then "/" else v
    | Option.none => "/"
  if vhost.take 1 = "/" then
    Except.ok ⟨protocol, hostname, username, password, port, channelMax,
      frameMax, heartbeat, locale, vhost⟩
  else Except.error ("Invalid vhost '" ++ vhost ++ "'. Must start with '/'")

/-- C7: code bug — src/configuration.ts line 58 reads
`password: !!connection.username ? connection.password : "guest"`: the
password's default is keyed on the *username*'s presence.  A struct with
a username but no password yields an undefined password (not `guest`, and
the record is not fully populated, contradicting the claim and the
function's own `Required<Connection>` type and doc comment); a struct
with a password but no username silently replaces the password by
`guest`. -/
theorem validateConnection_password_bug :
    (validateConnection { username := some "foo" }).map (fun c => c.password)
        = Except.ok Option.none
      ∧ (validateConnection { password := some "s3cret" }).map (fun c => c.password)
        = Except.ok (some "guest") := ⟨rfl, rfl⟩

/-- The input shapes `getConnections` dispatches on: `null`/`undefined`,
a connection string, an array of strings and structs, or an object — the
latter carrying its recognized endpoint fields and, when present, a
`connection` key (whose value is again any of these shapes). -/
inductive ConnInput where
  | nullish
  | str (s : String)
  | arr (xs : List (String ⊕ ConnPartial))
  | obj (fields : ConnPartial) (connection : Option ConnInput)

/-- src/configuration.ts `parseConnectionString`: split on commas and
parse each piece (`cs2obj` abstracts `connectionStringToObject`, i.e.
WHATWG-URL parsing followed by `validateConnection`; no theorem below
depends on it). -/
def parseConnectionString (cs2obj : String → Except String ConnFull)
    (connectionString : String := "amqp://localhost") : Except String (List ConnFull) :=
  if connectionString.contains ',' then (connectionString.splitOn ",").mapM cs2obj
  else do
    let c ← cs2obj connectionString
    Except.ok [c]

/-- src/configuration.ts `isConnection`: the object owns at least one of
the nine recognized endpoint keys (`locale` is not among them). -/
def isConnection (f : ConnPartial) : Bool :=
  f.protocol.isSome || f.hostname.isSome || f.username.isSome || f.password.isSome
    || f.port.isSome || f.channelMax.isSome || f.frameMax.isSome
    || f.heartbeat.isSome || f.vhost.isSome

/-- src/configuration.ts `getConnections`.  The source's chain of guards
has no final `else`: an object with no recognized endpoint key and no
`connection` key falls off the end and the function returns JS
`undefined`, modelled as `Except.ok Option.none`. -/
def getConnections (cs2obj : String → Except String ConnFull) :
    ConnInput → Except String (Option (List ConnFull))
  | .nullish => (parseConnectionString cs2obj).map some
  | .str s => (parseConnectionString cs2obj s).map some
  | .arr xs =>
      (xs.mapM (fun x =>
        match x with
        | Sum.inl s => parseConnectionString cs2obj s
        | Sum.inr c => (validateConnection c).map (fun r => [r]))).map
        (fun ls : List (List ConnFull) => some ls.flatten)
  | .obj fields Option.none =>
      if isConnection fields then (validateConnection fields).map (fun r => some [r])
      else Except.ok Option.none
  | .obj fields (some ci) =>
      if isConnection fields then (validateConnection fields).map (fun r => some [r])
      else getConnections cs2obj ci

/-- The loaded internal configuration, restricted to the `connection`
field `loadConfiguration` computes (the spread `exchanges`/`queues`
entries pass through unchanged and do not interact with it). -/
structure LoadedConfig where
  connection : Option (List ConnFull)
deriving DecidableEq, Repr

/-- src/configuration.ts `loadConfiguration`:
`{ ...configuration, connection: getConnections(connection) }`. -/
def loadConfiguration (cs2obj : String → Except String ConnFull)
    (connection : ConnInput) : Except String LoadedConfig :=
  (getConnections cs2obj connection).map (fun c => { connection := c })

/-- C10: constructing a broker from an object with none of the nine
recognized endpoint keys and no `connection` key — e.g. the empty object —
neither raises a configuration error nor falls back to the
`amqp://localhost` default: `getConnections` falls through every branch
(JS `undefined`), and the loaded configuration has no endpoint list at
all. -/
theorem getConnections_empty_object (cs2obj : String → Except String ConnFull) :
    getConnections cs2obj (.obj {} Option.none) = Except.ok Option.none
      ∧ loadConfiguration cs2obj (.obj {} Option.none)
        = Except.ok { connection := Option.none } := ⟨rfl, rfl⟩

/-! ## Entity registries (src/rabbit.ts, `Rabbit.queue` / `Rabbit.exchange`)

Each accessor does `if (!map.has(name)) map.set(name, new Entity(this,
name, config)); return map.get(name)`.  The registries are JS `Map`s,
modelled as association lists with `Map` get/set semantics. -/

/-- Queue declaration options (src/types.ts `QueueConfig`), the fields
the embedded operations read; the remaining opaque AMQP arguments pass
through unchanged and are omitted. -/
structure QueueConfig where
  name : Option String := Option.none
  durable : Option Bool := Option.none
  exclusive : Option Bool := Option.none
  autoDelete : Option Bool := Option.none
  messageTtl : Option Int := Option.none
  expires : Option Int := Option.none
  deadLetterExchange : Option String := Option.none
  deadLetterRoutingKey : Option String := Option.none
  maxLength : Option Int := Option.none
deriving DecidableEq, Repr

/-- Exchange declaration options (src/types.ts `ExchangeConfig`), the
scalar and binding fields; opaque AMQP arguments omitted. -/
structure ExchangeConfig where
  name : Option String := Option.none
  type : Option String := Option.none
  fanout : Option (List String) := Option.none
  topics : Option (List (String × List String)) := Option.none
  direct : Option (List (String × List String)) := Option.none
  durable : Option Bool := Option.none
  internal : Option Bool := Option.none
  autoDelete : Option Bool := Option.none
  alternateExchange : Option String := Option.none
deriving DecidableEq, Repr

/-- A `Queue` entity (src/queue.ts) as constructed by `new Queue(client,
name, config)`: `asserted = false`, no consumer tag. -/
structure QueueEnt where
  name : String
  config : QueueConfig
  asserted : Bool
  consumerTag : Option String
deriving DecidableEq, Repr

def newQueueEnt (name : String) (config : QueueConfig) : QueueEnt :=
  { name := name, config := config, asserted := false, consumerTag := Option.none }

/-- An `Exchange` entity (src/exchange.ts) as constructed by
`new Exchange(broker, name, config)`. -/
structure ExchangeEnt where
  name : String
  config : ExchangeConfig
  asserted : Bool
deriving DecidableEq, Repr

def newExchangeEnt (name : String) (config : ExchangeConfig) : ExchangeEnt :=
  { name := name, config := config, asserted := false }

/-- JS `Map.prototype.get` over an association list. -/
def mapGet? {ε : Type} : List (String × ε) → String → Option ε
  | [], _ => Option.none
  | (k, v) :: rest, key => if k = key then some v else mapGet? rest key

/-- JS `Map.prototype.set` over an association list. -/
def mapSet {ε : Type} : List (String × ε) → String → ε → List (String × ε)
  | [], key, v => [(key, v)]
  | (k, w) :: rest, key, v =>
      if k = key then (key, v) :: rest else (k, w) :: mapSet rest key v

/-- The accessor body shared by `Rabbit.queue`, `Rabbit.exchange` and
`Rabbit.channel`: create the entity under `name` only when absent, then
return the stored entity and the updated registry. -/
def getOrCreate {ε : Type} (m : List (String × ε)) (name : String) (fresh : ε) :
    ε × List (String × ε) :=
  let m2 := if (mapGet? m name).isSome then m else mapSet m name fresh
  ((mapGet? m2 name).getD fresh, m2)

/-- src/rabbit.ts `Rabbit.queue`. -/
def rabbitQueue (queues : List (String × QueueEnt)) (name : String)
    (config : QueueConfig := {}) : QueueEnt × List (String × QueueEnt) :=
  getOrCreate queues name (newQueueEnt name config)

/-- src/rabbit.ts `Rabbit.exchange`. -/
def rabbitExchange (exchanges : List (String × ExchangeEnt)) (name : String)
    (config : ExchangeConfig := {}) : ExchangeEnt × List (String × ExchangeEnt) :=
  getOrCreate exchanges name (newExchangeEnt name config)

theorem mapGet?_mapSet_self {ε : Type} (m : List (String × ε)) (k : String) (v : ε) :
    mapGet? (mapSet m k v) k = some v := by
  induction m with
  | nil => simp [mapSet, mapGet?]
  | cons p rest ih =>
      rcases p with ⟨k1, v1⟩
      by_cases h : k1 = k
      · simp [mapSet, mapGet?, h]
      · simp [mapSet, mapGet?, h, ih]

theorem getOrCreate_lookup {ε : Type} (m : List (String × ε)) (k : String) (fresh : ε) :
    mapGet? (getOrCreate m k fresh).2 k = some ((getOrCreate m k fresh).1) := by
  rw [getOrCreate]
  cases h : mapGet? m k with
  | none => simp [h, mapGet?_mapSet_self]
  | some q => simp [h]

theorem getOrCreate_idem {ε : Type} (m : List (String × ε)) (k : String) (f1 f2 : ε) :
    getOrCreate (getOrCreate m k f1).2 k f2
      = ((getOrCreate m k f1).1, (getOrCreate m k f1).2) := by
  have h := getOrCreate_lookup m k f1
  rw [getOrCreate, if_pos (by rw [h]; rfl), h]
  rfl

/-- C9: each get-or-create registry returns the identical entity on every
call with the same name: a second call — whatever configuration it
passes — returns exactly the entity the first call produced and leaves
the registry unchanged, so the later `config` argument is silently
ignored; for the queue registry and the exchange registry alike. -/
theorem registry_get_or_create (qs : List (String × QueueEnt))
    (es : List (String × ExchangeEnt)) (name : String)
    (c1 c2 : QueueConfig) (d1 d2 : ExchangeConfig) :
    ((rabbitQueue (rabbitQueue qs name c1).2 name c2).1 = (rabbitQueue qs name c1).1
      ∧ (rabbitQueue (rabbitQueue qs name c1).2 name c2).2 = (rabbitQueue qs name c1).2)
    ∧ ((rabbitExchange (rabbitExchange es name d1).2 name d2).1
          = (rabbitExchange es name d1).1
      ∧ (rabbitExchange (rabbitExchange es name d1).2 name d2).2
          = (rabbitExchange es name d1).2) := by
  unfold rabbitQueue rabbitExchange
  refine ⟨⟨?_, ?_⟩, ?_, ?_⟩ <;> rw [getOrCreate_idem]

/-! ## Outbound message encoding (src/utils.ts, `prepareMessage`)

`prepareMessage(message, options)` builds the effective options by
spreading `{ messageId: nanoid(), timestamp: Date.now(), appId:
process.env.npm_package_name, ...options }`; a Buffer payload is returned
as is; otherwise the payload is stringified (`fss`) and, when the caller
did not set a truthy contentType different from `application/json`,
`contentType` is set to `application/json`.  The ambient effects are
parameters: `newId` (the `nanoid()` draw), `now` (`Date.now()`),
`envAppId` (`process.env.npm_package_name`, possibly unset), `stringify`
(`fss`, JSON stringification) and `utf8` (`Buffer.from`). -/

/-- The message options `prepareMessage` manipulates (src/types.ts
`MsgData`); the other option fields pass through the spread unchanged and
are omitted. -/
structure MsgOptions where
  messageId : Option String := Option.none
  timestamp : Option Int := Option.none
  appId : Option String := Option.none
  contentType : Option String := Option.none
deriving DecidableEq, Repr

/-- src/utils.ts `prepareMessage`.  `α` is the type of non-Buffer
payloads; a payload is `Sum.inl bytes` (a Buffer) or `Sum.inr obj`. -/
def prepareMessage {α : Type} (stringify : α → String) (utf8 : String → List Nat)
    (newId : String) (now : Int) (envAppId : Option String)
    (message : List Nat ⊕ α) (options : MsgOptions := {}) : List Nat × MsgOptions :=
  let opts : MsgOptions :=
    { messageId := options.messageId.orElse (fun _ => some newId)
      timestamp := options.timestamp.orElse (fun _ => some now)
      appId := options.appId.orElse (fun _ => envAppId)
      contentType := options.contentType }
  match message with
  | Sum.inl b => (b, opts)
  | Sum.inr o =>
      match options.contentType with
      | some ct =>
          if ct ≠ "" && ct ≠ "application/json" then (utf8 (stringify o), opts)
          else (utf8 (stringify o), { opts with contentType := some "application/json" })
      | Option.none => (utf8 (stringify o), { opts with contentType := some "application/json" })

/-- C8 counterexample: a non-Buffer payload with caller-supplied
`contentType = ""` — a contentType different from `application/json` —
is *not* preserved: `options.contentType &&` tests JS truthiness, the
empty string is falsy, and the contentType is overwritten with
`application/json`. -/
theorem prepareMessage_contentType_counterexample :
    (prepareMessage (fun _ : Unit => "null") (fun s => [s.length]) "id0" 0 Option.none
        (Sum.inr ()) { contentType := some "" }).2.contentType
      = some "application/json"
      ∧ (some "application/json" : Option String) ≠ some "" := by
  exact ⟨rfl, by decide⟩

/-- C8 (amended): for every payload and options: (a) a Buffer payload is
returned unchanged and its contentType is exactly the caller's (unset
unless the caller set it); (b) a non-Buffer payload is stringified, with
contentType set to `application/json` unless the caller supplied a
*non-empty* (JS-truthy) contentType other than `application/json`, which
is preserved — an empty-string contentType is overwritten; (c) the
`messageId`, `timestamp` and `appId` defaults are injected exactly when
the caller left them unset, and caller-supplied values win, for both
payload shapes. -/
theorem prepareMessage_spec {α : Type} (stringify : α → String)
    (utf8 : String → List Nat) (newId : String) (now : Int)
    (envAppId : Option String) (b : List Nat) (o : α) (options : MsgOptions) :
    ((prepareMessage stringify utf8 newId now envAppId (Sum.inl b) options).1 = b
      ∧ (prepareMessage stringify utf8 newId now envAppId (Sum.inl b) options).2.contentType
          = options.contentType)
    ∧ ((prepareMessage stringify utf8 newId now envAppId (Sum.inr o) options).1
          = utf8 (stringify o)
      ∧ ((options.contentType = Option.none ∨ options.contentType = some ""
            ∨ options.contentType = some "application/json") →
          (prepareMessage stringify utf8 newId now envAppId (Sum.inr o) options).2.contentType
            = some "application/json")
      ∧ (∀ ct, options.contentType = some ct → ct ≠ "" → ct ≠ "application/json" →
          (prepareMessage stringify utf8 newId now envAppId (Sum.inr o) options).2.contentType
            = some ct))
    ∧ (∀ msg : List Nat ⊕ α,
        (prepareMessage stringify utf8 newId now envAppId msg options).2.messageId
            = options.messageId.orElse (fun _ => some newId)
          ∧ (prepareMessage stringify utf8 newId now envAppId msg options).2.timestamp
            = options.timestamp.orElse (fun _ => some now)
          ∧ (prepareMessage stringify utf8 newId now envAppId msg options).2.appId
            = options.appId.orElse (fun _ => envAppId)) := by
  refine ⟨⟨rfl, rfl⟩, ⟨?_, ?_, ?_⟩, ?_⟩
  · unfold prepareMessage
    cases h : options.contentType with
    | none => simp only [h]
    | some ct =>
        simp only [h]
        split <;> rfl
  · rintro (h | h | h) <;> unfold prepareMessage <;> simp [h]
  · intro ct hct hne hnj
    unfold prepareMessage
    simp [hct, hne, hnj]
  · intro msg
    cases msg with
    | inl b2 => exact ⟨rfl, rfl, rfl⟩
    | inr o2 =>
        unfold prepareMessage
        cases h : options.contentType with
        | none => simp [h]
        | some ct =>
            simp only [h]
            split <;> simp

/-- C8 witness: with a caller-supplied `contentType = "text/plain"`, a
struct payload is stringified but the contentType is preserved; the
Buffer shape and the default injections hold at the same input. -/
theorem prepareMessage_spec_witness :
    (prepareMessage (fun _ : Unit => "null") (fun s => [s.length]) "id0" 7 (some "app")
        (Sum.inr ()) { contentType := some "text/plain" }).2.contentType
      = some "text/plain" := by
  have h := prepareMessage_spec (fun _ : Unit => "null") (fun s => [s.length]) "id0" 7
    (some "app") [] () { contentType := some "text/plain" }
  exact h.2.1.2.2 "text/plain" rfl (by decide) (by decide)

/-! ## Connection manager: connect policy (§4.5 of the spec)

Modelled from the spec: the `Rabbit.connect(retry, frequency)` retry loop
is missing from src/ — src/src/rabbit.ts holds an earlier stub (`// TODO:
connection recovery and cluster mode`, a single dial of
`configuration.connection[0]`), while src/test/connection.ts exercises
`connect(5, 100)` (6 dials), the round-robin order and `broker.connected`,
src/src/channel.ts calls `client.connected`/`client.connection`, and
src/src/types.ts declares the `{ nodes, retry, frequency }` policy none
of which that stub provides.  Per the spec: repeatedly attempt the
endpoint at `cursor`, on failure advance `cursor = (cursor + 1) mod N`;
one cluster attempt is a full pass through all `N` endpoints; after a
failed pass, surface the last error when the retry budget is zero, else
sleep `frequency` ms, decrement and start a new cluster attempt. -/

/-- Modelled from the spec: the dial attempts of one cluster attempt —
`k` consecutive failing dials starting at `cursor`, the cursor advancing
modulo `N` after each — together with the final cursor. -/
def passFrom {α : Type} [Inhabited α] (nodes : List α) : Nat → Nat → List α × Nat
  | 0, cursor => ([], cursor)
  | k + 1, cursor =>
      let rest := passFrom nodes k ((cursor + 1) % nodes.length)
      (nodes.getD cursor default :: rest.1, rest.2)

/-- Modelled from the spec: the dial sequence of `connect(retry = r)` on
an unreachable cluster — a full pass over all `N` endpoints from the
current cursor; when the budget is exhausted the last error surfaces,
otherwise decrement and run the next cluster attempt from the cursor the
pass ended on. -/
def connectDials {α : Type} [Inhabited α] (nodes : List α) : Nat → Nat → List α
  | 0, cursor => (passFrom nodes nodes.length cursor).1
  | r + 1, cursor =>
      let p := passFrom nodes nodes.length cursor
      p.1 ++ connectDials nodes r p.2

theorem drop_cons_getD {α : Type} [Inhabited α] :
    ∀ (l : List α) (c : Nat), c < l.length →
      l.drop c = l.getD c default :: l.drop (c + 1) := by
  intro l
  induction l with
  | nil => intro c hc; cases hc
  | cons x t ih =>
      intro c hc
      cases c with
      | zero => rfl
      | succ c =>
          have hc2 : c < t.length := Nat.lt_of_succ_lt_succ hc
          show t.drop c = _
          rw [ih c hc2]
          rfl

/-- One full pass from a cursor `c` with `c + k = N`, `k ≥ 1`: it dials
the nodes from position `c` on, in declaration order, and the cursor
wraps around to `0`. -/
theorem passFrom_full {α : Type} [Inhabited α] (nodes : List α) :
    ∀ (j c : Nat), c + (j + 1) = nodes.length →
      passFrom nodes (j + 1) c = (nodes.drop c, 0) := by
  intro j
  induction j with
  | zero =>
      intro c hc
      have hlt : c < nodes.length := by omega
      have hmod : (c + 1) % nodes.length = 0 := by
        have hlen : nodes.length = c + 1 := by omega
        rw [hlen, Nat.mod_self]
      rw [passFrom, passFrom]
      rw [drop_cons_getD nodes c hlt]
      have hdrop : nodes.drop (c + 1) = [] := by
        apply List.drop_eq_nil_of_le
        omega
      rw [hdrop]
      simp [hmod]
  | succ j ih =>
      intro c hc
      have hlt : c < nodes.length := by omega
      have hmod : (c + 1) % nodes.length = c + 1 := by
        apply Nat.mod_eq_of_lt
        omega
      rw [passFrom, hmod, ih (c + 1) (by omega)]
      rw [drop_cons_getD nodes c hlt]

/-- C1: (spec-modelled) `connect(retry = r)` on an unreachable `N`-node
cluster attempts the endpoints in declaration order round-robin — from a
fresh cursor the dial sequence is the node list repeated `r + 1` times,
the cursor advancing modulo `N` after each failure and returning to the
start of the list between cluster attempts — and performs exactly
`(r + 1) * N` dial calls before surfacing the last error. -/
theorem connect_retry_round_robin {α : Type} [Inhabited α] (nodes : List α)
    (r : Nat) (h : nodes ≠ []) :
    connectDials nodes r 0 = (List.replicate (r + 1) nodes).flatten
      ∧ (connectDials nodes r 0).length = (r + 1) * nodes.length := by
  obtain ⟨j, hj⟩ : ∃ j, nodes.length = j + 1 := by
    cases nodes with
    | nil => exact absurd rfl h
    | cons x t => exact ⟨t.length, rfl⟩
  have hpass : passFrom nodes nodes.length 0 = (nodes, 0) := by
    rw [hj, passFrom_full nodes j 0 (by omega)]
    rfl
  have hmain : ∀ r2 : Nat, connectDials nodes r2 0 = (List.replicate (r2 + 1) nodes).flatten := by
    intro r2
    induction r2 with
    | zero => rw [connectDials, hpass]; simp
    | succ r2 ih =>
        rw [connectDials, hpass]
        show nodes ++ connectDials nodes r2 0 = _
        rw [ih, List.replicate_succ (n := r2 + 1), List.flatten_cons]
  refine ⟨hmain r, ?_⟩
  rw [hmain r]
  induction r with
  | zero => simp
  | succ r ih =>
      rw [List.replicate_succ, List.flatten_cons, List.length_append, ih]
      ring

/-- C1 witness: three declared nodes and one retry — the dial sequence of
`connect(1)` is `foo, bar, baz, foo, bar, baz` (the order the repository's
own cluster test asserts) and its length is `(1 + 1) * 3 = 6`. -/
theorem connect_retry_round_robin_witness :
    (["foo", "bar", "baz"] : List String) ≠ []
      ∧ connectDials ["foo", "bar", "baz"] 1 0
          = ["foo", "bar", "baz", "foo", "bar", "baz"]
      ∧ (connectDials ["foo", "bar", "baz"] 1 0).length = (1 + 1) * 3 := by
  have h := connect_retry_round_robin (["foo", "bar", "baz"] : List String) 1 (by decide)
  exact ⟨by decide, h.1.trans rfl, h.2⟩

end Ezmqp
